import Mathlib

/-!
Verification of the Amazon Bedrock Knowledge Bases retriever
(`langchain_aws/retrievers/bedrock.py`).

The Python module is shallowly embedded here:

* Python/JSON values (`dict`, `list`, `str`, numbers, `bool`, `None`) become
  the inductive type `JValue`; Python `dict`s become ordered association
  lists `List (String × JValue)` with insertion-order-preserving update
  (`dictSet`), key removal (`dictPop`) and lookup (`alook`, plus `pyGet`
  which models `dict.get` where a stored `None` and a missing key are
  indistinguishable).
* Python floats are modelled as exact rationals; Python truthiness becomes
  `pyTruthy`.
* The pydantic models `SearchFilter`, `VectorSearchConfig` and
  `RetrievalConfig` become structures.  `model_dump(exclude_none=True,
  by_alias=True)` becomes the `dump…` functions (unset optional fields are
  omitted, the `in_` field serialises under its alias `"in"`).  Pydantic
  validation from a nested mapping becomes the `parse…` functions; the
  recursive `SearchFilter` validator is written with an explicit fuel
  argument (`parseSFFuel`) so that it is structurally recursive; the
  wrapper `parseSearchFilter` supplies fuel `jsize v + 1`, which always
  bounds the nesting depth of `v`, so the fuel never runs out.
* Raising `ValueError` / `AttributeError` becomes the `Except PyErr` monad.

Functions keep the snake-case names of the source
(`_get_content_from_result` → `getContentFromResult`, etc.).
-/

namespace BedrockKB

/-- Embedded Python/JSON value. -/
inductive JValue where
  | null : JValue
  | bool : Bool → JValue
  | num : ℚ → JValue
  | str : String → JValue
  | arr : List JValue → JValue
  | obj : List (String × JValue) → JValue

/-- Embeds `Filter = Dict[str, FilterValue]` from the source: a field-name →
value mapping (values are unconstrained). -/
abbrev Filter := List (String × JValue)

/-- Association-list lookup, the embedding of `d[k]` / `k in d` on a Python
dict (returns the value stored under the first matching key). -/
def alook (k : String) : List (String × JValue) → Option JValue
  | [] => none
  | (k', v) :: rest => if k' = k then some v else alook k rest

/-- Replaces the value stored under `k`, keeping the entry's position. -/
def replaceKey : List (String × JValue) → String → JValue →
    List (String × JValue)
  | [], _, _ => []
  | (k', w) :: rest, k, v =>
      if k' = k then (k, v) :: replaceKey rest k v
      else (k', w) :: replaceKey rest k v

/-- Embedding of `d[k] = v` on a Python dict: replaces the value in place if
the key is present, otherwise appends the new key at the end (Python dicts
preserve insertion order). -/
def dictSet (d : List (String × JValue)) (k : String) (v : JValue) :
    List (String × JValue) :=
  if (alook k d).isSome then replaceKey d k v else d ++ [(k, v)]

/-- Embedding of `d.pop(k)` (the removal part): drops the key. -/
def dictPop : List (String × JValue) → String → List (String × JValue)
  | [], _ => []
  | (k', w) :: rest, k =>
      if k' = k then dictPop rest k else (k', w) :: dictPop rest k

/-- Python truthiness of an embedded value: `None`, `False`, `0`, `""`, `[]`
and an empty dict are falsy, everything else is truthy. -/
def pyTruthy : JValue → Bool
  | .null => false
  | .bool b => b
  | .num q => q.num ≠ 0
  | .str s => s ≠ ""
  | .arr [] => false
  | .arr (_ :: _) => true
  | .obj [] => false
  | .obj (_ :: _) => true

/-- Embedding of `d.get(k)` (no default): a stored `None` and a missing key
both come back as `none` — Python cannot tell them apart. -/
def pyGet (k : String) (m : List (String × JValue)) : Option JValue :=
  match alook k m with
  | some .null => none
  | o => o

/- Structural size of a `JValue`, used as recursion fuel for the recursive
`SearchFilter` validator (the derived `sizeOf` of a nested inductive is not
executable). -/
mutual

def jsize : JValue → Nat
  | .null => 1
  | .bool _ => 1
  | .num _ => 1
  | .str _ => 1
  | .arr xs => jsizeList xs + 1
  | .obj fs => jsizePairs fs + 1

def jsizeList : List JValue → Nat
  | [] => 1
  | x :: xs => jsize x + jsizeList xs + 1

def jsizePairs : List (String × JValue) → Nat
  | [] => 1
  | (_, v) :: xs => jsize v + jsizePairs xs + 1

end

/- Embedding of `json.dumps` with its default separators (`", "` and
`": "`).  The rendering of non-integer numbers and of string escapes is an
approximation of CPython's, which the verified claims never exercise. -/
mutual

def jsonDumps : JValue → String
  | .null => "null"
  | .bool true => "true"
  | .bool false => "false"
  | .num q => if q.den = 1 then toString q.num else toString q
  | .str s => "\"" ++ s ++ "\""
  | .arr xs => "[" ++ String.intercalate ", " (jsonDumpsList xs) ++ "]"
  | .obj fs => "\x7b" ++ String.intercalate ", " (jsonDumpsPairs fs) ++ "\x7d"

def jsonDumpsList : List JValue → List String
  | [] => []
  | x :: xs => jsonDumps x :: jsonDumpsList xs

def jsonDumpsPairs : List (String × JValue) → List String
  | [] => []
  | (k, v) :: xs => ("\"" ++ k ++ "\": " ++ jsonDumps v) :: jsonDumpsPairs xs

end

/-- Embedding of `str.strip()`: removes leading and trailing whitespace
(ASCII whitespace, which covers every input the claims use). -/
def pyStrip (s : String) : String :=
  ⟨(s.data.dropWhile Char.isWhitespace).reverse.dropWhile Char.isWhitespace
    |>.reverse⟩

/-- Python exceptions raised by the decoder: `ValueError` (the module's
"invalid result" error) and `AttributeError` (calling `.get` on a non-dict,
which the source can only hit on a truthy non-mapping `content`). -/
inductive PyErr where
  | valueError (msg : String)
  | attributeError (msg : String)

/-- Embedding of `langchain_core.documents.Document` as the module uses it:
a body (`page_content`, which the source may set to `None`) plus a metadata
mapping. -/
structure Document where
  page_content : Option JValue
  metadata : List (String × JValue)

/-- Embedding of the pydantic model `SearchFilter` (bedrock.py lines 17-36):
fourteen optional fields, where `andAll`/`orAll` hold recursive child lists
and `in_` carries the external alias `"in"` (`notIn`'s declared alias equals
its name). -/
inductive SearchFilter where
  | mk (andAll : Option (List SearchFilter)) (orAll : Option (List SearchFilter))
       (equals : Option Filter) (greaterThan : Option Filter)
       (greaterThanOrEquals : Option Filter) (in_ : Option Filter)
       (lessThan : Option Filter) (lessThanOrEquals : Option Filter)
       (listContains : Option Filter) (notEquals : Option Filter)
       (notIn : Option Filter) (startsWith : Option Filter)
       (stringContains : Option Filter) : SearchFilter

/-- Internal (safe-identifier) accessor for the aliased `in` operator. -/
def SearchFilter.in_ : SearchFilter → Option Filter
  | .mk _ _ _ _ _ i _ _ _ _ _ _ _ => i

/-- Accessor for the `notIn` operator. -/
def SearchFilter.notIn : SearchFilter → Option Filter
  | .mk _ _ _ _ _ _ _ _ _ _ ni _ _ => ni

/-- Serialisation of one optional leaf-operator field: omitted when unset
(`exclude_none=True`), emitted under the given wire key otherwise. -/
def optField (k : String) (o : Option Filter) : List (String × JValue) :=
  match o with
  | none => []
  | some f => [(k, JValue.obj f)]

/- Embedding of `SearchFilter.model_dump(exclude_none=True, by_alias=True)`:
fields appear in declaration order, unset fields are omitted, and the `in_`
field serialises under its alias `"in"`. -/
mutual

def dumpSF : SearchFilter → List (String × JValue)
  | .mk a o e gt gte i lt lte lc ne ni sw sc =>
    (match a with
     | none => []
     | some l => [("andAll", JValue.arr (dumpSFList l))]) ++
    (match o with
     | none => []
     | some l => [("orAll", JValue.arr (dumpSFList l))]) ++
    optField "equals" e ++ optField "greaterThan" gt ++
    optField "greaterThanOrEquals" gte ++ optField "in" i ++
    optField "lessThan" lt ++ optField "lessThanOrEquals" lte ++
    optField "listContains" lc ++ optField "notEquals" ne ++
    optField "notIn" ni ++ optField "startsWith" sw ++
    optField "stringContains" sc

def dumpSFList : List SearchFilter → List JValue
  | [] => []
  | f :: fs => JValue.obj (dumpSF f) :: dumpSFList fs

end

/-- Validation of one `Optional[Filter]` leaf field from its mapping entry:
missing key or explicit `null` leaves the field unset, a mapping is taken
verbatim (its values have type `Any`), anything else is rejected. -/
def parseOptFilter : Option JValue → Option (Option Filter)
  | none => some none
  | some .null => some none
  | some (.obj f) => some (some f)
  | some _ => none

/-- Lookup under an external alias, falling back to the internal field name
(pydantic `populate_by_name=True`). -/
def alookAlias (m : List (String × JValue)) (aliasKey fieldName : String) :
    Option JValue :=
  match alook aliasKey m with
  | some v => some v
  | none => alook fieldName m

/- Recursive pydantic validation of `SearchFilter` from a nested mapping,
written with explicit fuel so the recursion is structural.  Unknown keys are
ignored (the model does not declare `extra="allow"`), child lists under
`andAll`/`orAll` are validated recursively, and the `in_` field is populated
from its alias `"in"` (or its internal name). -/
mutual

def parseSFFuel : Nat → JValue → Option SearchFilter
  | 0, _ => none
  | fuel + 1, .obj m => do
    let a ← (match alook "andAll" m with
      | none => some none
      | some .null => some none
      | some (.arr xs) => (parseSFListFuel fuel xs).map some
      | some _ => none)
    let o ← (match alook "orAll" m with
      | none => some none
      | some .null => some none
      | some (.arr xs) => (parseSFListFuel fuel xs).map some
      | some _ => none)
    let e ← parseOptFilter (alook "equals" m)
    let gt ← parseOptFilter (alook "greaterThan" m)
    let gte ← parseOptFilter (alook "greaterThanOrEquals" m)
    let i ← parseOptFilter (alookAlias m "in" "in_")
    let lt ← parseOptFilter (alook "lessThan" m)
    let lte ← parseOptFilter (alook "lessThanOrEquals" m)
    let lc ← parseOptFilter (alook "listContains" m)
    let ne ← parseOptFilter (alook "notEquals" m)
    let ni ← parseOptFilter (alook "notIn" m)
    let sw ← parseOptFilter (alook "startsWith" m)
    let sc ← parseOptFilter (alook "stringContains" m)
    some (.mk a o e gt gte i lt lte lc ne ni sw sc)
  | _ + 1, _ => none

def parseSFListFuel : Nat → List JValue → Option (List SearchFilter)
  | _, [] => some []
  | 0, _ :: _ => none
  | fuel + 1, v :: vs => do
    let f ← parseSFFuel fuel v
    let fs ← parseSFListFuel fuel vs
    some (f :: fs)

end

/-- Validation of a `SearchFilter` from a mapping; `jsize v + 1` always
exceeds the nesting depth of `v`, so the fuel never runs out. -/
def parseSearchFilter (v : JValue) : Option SearchFilter :=
  parseSFFuel (jsize v + 1) v

/-- Embedding of the pydantic model `VectorSearchConfig` (bedrock.py lines
39-44): `numberOfResults: int = 4` (no positivity constraint is declared),
optional filter, optional `overrideSearchType`, plus preserved unknown extra
fields (`extra="allow"`). -/
structure VectorSearchConfig where
  numberOfResults : Int := 4
  filter : Option SearchFilter := none
  overrideSearchType : Option String := none
  extra : List (String × JValue) := []

/-- Embedding of the pydantic model `RetrievalConfig` (bedrock.py lines
47-51): a required `VectorSearchConfig`, an optional pagination token, plus
preserved unknown extra fields. -/
structure RetrievalConfig where
  vectorSearchConfiguration : VectorSearchConfig
  nextToken : Option String := none
  extra : List (String × JValue) := []

/-- True for values other than `None` (used to drop `None`-valued extra
fields under `exclude_none=True`). -/
def notNull : JValue → Bool
  | .null => false
  | _ => true

/-- Embedding of `VectorSearchConfig.model_dump(exclude_none=True,
by_alias=True)`: declared fields in order, unset optional fields omitted,
then the extra fields. -/
def dumpVectorSearchConfig (c : VectorSearchConfig) : List (String × JValue) :=
  [("numberOfResults", JValue.num (c.numberOfResults : ℚ))] ++
  (match c.filter with
   | none => []
   | some sf => [("filter", JValue.obj (dumpSF sf))]) ++
  (match c.overrideSearchType with
   | none => []
   | some s => [("overrideSearchType", JValue.str s)]) ++
  c.extra.filter (fun p => notNull p.2)

/-- Embedding of `RetrievalConfig.model_dump(exclude_none=True,
by_alias=True)`. -/
def dumpRetrievalConfig (c : RetrievalConfig) : List (String × JValue) :=
  [("vectorSearchConfiguration",
    JValue.obj (dumpVectorSearchConfig c.vectorSearchConfiguration))] ++
  (match c.nextToken with
   | none => []
   | some t => [("nextToken", JValue.str t)]) ++
  c.extra.filter (fun p => notNull p.2)

/-- Pydantic validation of `VectorSearchConfig` from a mapping:
`numberOfResults` takes any integer (default 4 when the key is missing; a
non-integral number is rejected, exactly the declared `int` type and nothing
more — the source declares no positivity constraint), `filter` validates
recursively, `overrideSearchType` must be `"HYBRID"` or `"SEMANTIC"`, and
unknown keys are kept as extra fields (`extra="allow"`). -/
def parseVectorSearchConfig (v : JValue) : Option VectorSearchConfig :=
  match v with
  | .obj m => do
    let n ← (match alook "numberOfResults" m with
      | none => some (4 : Int)
      | some (.num q) => if q.den = 1 then some q.num else none
      | some _ => none)
    let f ← (match alook "filter" m with
      | none => some none
      | some .null => some none
      | some fv => (parseSearchFilter fv).map some)
    let o ← (match alook "overrideSearchType" m with
      | none => some none
      | some .null => some none
      | some (.str s) =>
          if s = "HYBRID" ∨ s = "SEMANTIC" then some (some s) else none
      | some _ => none)
    some ⟨n, f, o,
      m.filter (fun p =>
        ¬(p.1 = "numberOfResults" ∨ p.1 = "filter" ∨
          p.1 = "overrideSearchType"))⟩
  | _ => none

/-- Embedding of `_get_retrieve_request` (bedrock.py lines 178-193): builds
the wire request from the stripped query and the knowledge-base id, adding a
`retrievalConfiguration` key only when a config is set (`None` is falsy, so
the key is omitted entirely in that case). -/
def getRetrieveRequest (query : String) (knowledge_base_id : String)
    (retrieval_config : Option RetrievalConfig) : List (String × JValue) :=
  [("retrievalQuery", JValue.obj [("text", JValue.str (pyStrip query))]),
   ("knowledgeBaseId", JValue.str knowledge_base_id)] ++
  (match retrieval_config with
   | none => []
   | some c => [("retrievalConfiguration",
       JValue.obj (dumpRetrievalConfig c))])

/-- Embedding of `content.get("row", [])` followed by `row if row else []`
(bedrock.py lines 244-245): a missing key defaults to `[]`, and a falsy
stored value (including `None`) is also replaced by `[]`. -/
def rowOrEmpty (o : Option JValue) : JValue :=
  match o with
  | none => .arr []
  | some v => if pyTruthy v then v else .arr []

/-- Embedding of `_get_content_from_result` (bedrock.py lines 222-249): an
empty result or a falsy/missing `content` raises `ValueError`; otherwise the
content's type tag is dispatched — falsy-or-missing tag and `"TEXT"` return
the `text` field, `"IMAGE"` returns `byteContent`, `"ROW"` returns
`json.dumps` of the row (empty list when missing or falsy), and any other
tag returns `None`.  A truthy non-mapping `content` would raise
`AttributeError` at `content.get` in Python. -/
def getContentFromResult (result : List (String × JValue)) :
    Except PyErr (Option JValue) :=
  if result.isEmpty then .error (.valueError "Invalid search result")
  else
    match alook "content" result with
    | none =>
        .error (.valueError
          "Invalid search result, content is missing from the result")
    | some c =>
      if pyTruthy c = false then
        .error (.valueError
          "Invalid search result, content is missing from the result")
      else
        match c with
        | .obj cf =>
          match pyGet "type" cf with
          | none => .ok (pyGet "text" cf)
          | some tv =>
            if pyTruthy tv = false then .ok (pyGet "text" cf)
            else
              match tv with
              | .str t =>
                if t = "TEXT" then .ok (pyGet "text" cf)
                else if t = "IMAGE" then .ok (pyGet "byteContent" cf)
                else if t = "ROW" then
                  .ok (some (.str (jsonDumps (rowOrEmpty (alook "row" cf)))))
                else .ok none
              | _ => .ok none
        | _ => .error (.attributeError "content has no attribute get")

/-- Embedding of `result.get("content", {}).get("type", "TEXT")` (bedrock.py
line 208).  When this runs, content extraction has already succeeded, so the
`content` value is a mapping; the non-mapping fallback arm is unreachable
there (Python would have raised before reaching this line). -/
def typeTagOf (result : List (String × JValue)) : JValue :=
  match (alook "content" result).getD (.obj []) with
  | .obj cf => (alook "type" cf).getD (.str "TEXT")
  | _ => .str "TEXT"

/-- Embedding of `if "score" not in result: result["score"] = 0` (bedrock.py
lines 210-211): the key-presence test is `in`, so a stored `None` counts as
present and is left untouched. -/
def scoreStep (r : List (String × JValue)) : List (String × JValue) :=
  if (alook "score" r).isSome then r else dictSet r "score" (.num 0)

/-- Embedding of `if "metadata" in result:
result["source_metadata"] = result.pop("metadata")` (bedrock.py lines
212-213): when the key is present its value is removed and re-inserted under
`source_metadata`; an absent key leaves the record unchanged. -/
def metaStep (r : List (String × JValue)) : List (String × JValue) :=
  match alook "metadata" r with
  | some mv => dictSet (dictPop r "metadata") "source_metadata" mv
  | none => r

/-- The metadata reshaping of one iteration of
`_retrieval_results_to_documents` (bedrock.py lines 208-213), as a pure
function on the record: set `type` from the content's tag, pop `content`,
default a missing `score`, then move `metadata` to `source_metadata`. -/
def decodeMeta (result : List (String × JValue)) : List (String × JValue) :=
  metaStep (scoreStep (dictPop (dictSet result "type" (typeTagOf result))
    "content"))

/-- Embedding of one iteration of `_retrieval_results_to_documents`
(bedrock.py lines 195-220): extract the content body (content extraction only
reads the record, so it commutes with the later in-place mutation), reshape
the metadata, and build the Document. -/
def decodeResult (result : List (String × JValue)) : Except PyErr Document :=
  match getContentFromResult result with
  | .error e => .error e
  | .ok content => .ok ⟨content, decodeMeta result⟩

/-- Embedding of `_retrieval_results_to_documents` over the whole result
list: results are decoded in order and the first raised error aborts the
call (Python's exception propagation). -/
def retrievalResultsToDocuments (results : List (List (String × JValue))) :
    Except PyErr (List Document) :=
  results.mapM decodeResult

/-- True when a stored score value is a number `≥ m` (the embedding of
`score >= min_score_confidence`; a non-numeric score would raise `TypeError`
in Python and is outside the wire contract, which sends float scores). -/
def scoreGe (v : JValue) (m : ℚ) : Bool :=
  match v with
  | .num q => m ≤ q
  | _ => false

/-- Embedding of `_filter_by_score_confidence` (bedrock.py lines 139-154):
a falsy threshold (`None` or `0`) returns the input unchanged; otherwise only
documents whose `score` metadata is present, non-`None` and `≥` the threshold
are kept, in order. -/
def filterByScore (min_score_confidence : Option ℚ) (docs : List Document) :
    List Document :=
  match min_score_confidence with
  | none => docs
  | some m =>
    if m = 0 then docs
    else docs.filter (fun item =>
      (pyGet "score" item.metadata).isSome &&
      scoreGe ((pyGet "score" item.metadata).getD (.num 0)) m)

/-- True on `.ok` results; the embedding-level "did not raise". -/
def exceptOk : Except PyErr (Option JValue) → Bool
  | .ok _ => true
  | .error _ => false

/-- True exactly when the computation raised the module's "invalid result"
`ValueError` (as opposed to not raising, or raising `AttributeError`). -/
def isInvalidResult : Except PyErr (Option JValue) → Bool
  | .error (.valueError _) => true
  | _ => false

/-- Well-typedness of the `content` field as the source annotates it
(`content: dict = result.get("content")`, bedrock.py line 232): when present,
the value is either `None` or a mapping. -/
def contentWellTyped (result : List (String × JValue)) : Prop :=
  ∀ v, alook "content" result = some v → v = JValue.null ∨ ∃ cf, v = JValue.obj cf

/-- The wire keys a serialised `SearchFilter` may use: all thirteen operator
names in alias form (`"in"`, `"notIn"`), never the internal name `in_`. -/
def sfWireKeys : List String :=
  ["andAll", "orAll", "equals", "greaterThan", "greaterThanOrEquals", "in",
   "lessThan", "lessThanOrEquals", "listContains", "notEquals", "notIn",
   "startsWith", "stringContains"]

/-- A `SearchFilter` whose only populated field is the aliased `in` operator. -/
def sfIn (f : Filter) : SearchFilter :=
  .mk none none none none none (some f) none none none none none none none

section AssocLemmas

theorem alook_nil (k : String) : alook k [] = none := rfl

theorem alook_append (k : String) (d1 d2 : List (String × JValue)) :
    alook k (d1 ++ d2) =
      match alook k d1 with
      | some v => some v
      | none => alook k d2 := by
  induction d1 with
  | nil => simp [alook]
  | cons p rest ih =>
    obtain ⟨k', v⟩ := p
    by_cases h : k' = k <;> simp [alook, h, ih]

theorem alook_replaceKey_self (k : String) (v : JValue)
    (d : List (String × JValue)) (h : (alook k d).isSome = true) :
    alook k (replaceKey d k v) = some v := by
  induction d with
  | nil => simp [alook] at h
  | cons p rest ih =>
    obtain ⟨k0, w⟩ := p
    by_cases hk : k0 = k
    · simp [replaceKey, hk, alook]
    · simp only [alook, if_neg hk] at h
      simp [replaceKey, hk, alook, ih h]

theorem alook_replaceKey_ne (k k' : String) (v : JValue)
    (d : List (String × JValue)) (h : k' ≠ k) :
    alook k' (replaceKey d k v) = alook k' d := by
  induction d with
  | nil => simp [replaceKey]
  | cons p rest ih =>
    obtain ⟨k0, w⟩ := p
    by_cases hk : k0 = k
    · have hkk : ¬ (k = k') := fun hh => h hh.symm
      simp [replaceKey, hk, alook, hkk, ih]
    · simp [replaceKey, hk, alook, ih]

theorem alook_dictSet_self (d : List (String × JValue)) (k : String)
    (v : JValue) : alook k (dictSet d k v) = some v := by
  unfold dictSet
  by_cases h : (alook k d).isSome = true
  · simp [h, alook_replaceKey_self k v d h]
  · have hnone : alook k d = none := by
      cases he : alook k d
      · rfl
      · exact absurd (by simp [he]) h
    simp [h, alook_append, hnone, alook]

theorem alook_dictSet_ne (d : List (String × JValue)) (k k' : String)
    (v : JValue) (h : k' ≠ k) :
    alook k' (dictSet d k v) = alook k' d := by
  unfold dictSet
  split
  · exact alook_replaceKey_ne k k' v d h
  · have hkk : ¬ (k = k') := fun hh => h hh.symm
    rw [alook_append]
    cases he : alook k' d
    · simp [alook, hkk]
    · simp

theorem alook_dictPop_self (d : List (String × JValue)) (k : String) :
    alook k (dictPop d k) = none := by
  induction d with
  | nil => simp [dictPop, alook]
  | cons p rest ih =>
    obtain ⟨k', v⟩ := p
    by_cases hk : k' = k <;> simp [dictPop, alook, hk, ih]

theorem alook_dictPop_ne (d : List (String × JValue)) (k k' : String)
    (h : k' ≠ k) : alook k' (dictPop d k) = alook k' d := by
  induction d with
  | nil => simp [dictPop]
  | cons p rest ih =>
    obtain ⟨k0, v⟩ := p
    by_cases hk : k0 = k
    · have hkk : ¬ (k = k') := fun hh => h hh.symm
      simp [dictPop, hk, alook, hkk, ih]
    · by_cases hk' : k0 = k' <;> simp [dictPop, alook, hk, hk', h, ih]

theorem alook_scoreStep_ne (r : List (String × JValue)) (k : String)
    (h : k ≠ "score") : alook k (scoreStep r) = alook k r := by
  unfold scoreStep
  split
  · rfl
  · exact alook_dictSet_ne r "score" k (.num 0) h

theorem alook_scoreStep_score (r : List (String × JValue)) :
    alook "score" (scoreStep r) = some ((alook "score" r).getD (.num 0)) := by
  unfold scoreStep
  cases he : alook "score" r with
  | none => simp [he, alook_dictSet_self]
  | some s => simp [he]

theorem alook_metaStep_ne (r : List (String × JValue)) (k : String)
    (h1 : k ≠ "metadata") (h2 : k ≠ "source_metadata") :
    alook k (metaStep r) = alook k r := by
  unfold metaStep
  cases he : alook "metadata" r with
  | none => rfl
  | some mv =>
    rw [alook_dictSet_ne _ _ _ _ h2, alook_dictPop_ne _ _ _ h1]

theorem alook_metaStep_moved (r : List (String × JValue)) (mv : JValue)
    (h : alook "metadata" r = some mv) :
    alook "source_metadata" (metaStep r) = some mv ∧
    alook "metadata" (metaStep r) = none := by
  unfold metaStep
  rw [h]
  constructor
  · exact alook_dictSet_self _ _ _
  · rw [alook_dictSet_ne _ _ _ _ (by decide), alook_dictPop_self]

theorem alook_metaStep_absent (r : List (String × JValue))
    (h : alook "metadata" r = none) : metaStep r = r := by
  unfold metaStep
  rw [h]

end AssocLemmas

section DecodeLemmas

theorem alook_decodeMeta_type (result cf : List (String × JValue))
    (hc : alook "content" result = some (.obj cf)) :
    alook "type" (decodeMeta result) =
      some ((alook "type" cf).getD (.str "TEXT")) := by
  unfold decodeMeta
  rw [alook_metaStep_ne _ _ (by decide) (by decide),
      alook_scoreStep_ne _ _ (by decide),
      alook_dictPop_ne _ _ _ (by decide),
      alook_dictSet_self]
  unfold typeTagOf
  rw [hc]
  rfl

theorem alook_decodeMeta_score (result : List (String × JValue)) :
    alook "score" (decodeMeta result) =
      some ((alook "score" result).getD (.num 0)) := by
  unfold decodeMeta
  rw [alook_metaStep_ne _ _ (by decide) (by decide), alook_scoreStep_score,
      alook_dictPop_ne _ _ _ (by decide),
      alook_dictSet_ne _ _ _ _ (by decide)]

theorem alook_decodeMeta_content (result : List (String × JValue)) :
    alook "content" (decodeMeta result) = none := by
  unfold decodeMeta
  rw [alook_metaStep_ne _ _ (by decide) (by decide),
      alook_scoreStep_ne _ _ (by decide), alook_dictPop_self]

theorem decodeMeta_metadata_moved (result : List (String × JValue))
    (mv : JValue) (hm : alook "metadata" result = some mv) :
    alook "source_metadata" (decodeMeta result) = some mv ∧
    alook "metadata" (decodeMeta result) = none := by
  unfold decodeMeta
  have h3 : alook "metadata"
      (scoreStep (dictPop (dictSet result "type" (typeTagOf result))
        "content")) = some mv := by
    rw [alook_scoreStep_ne _ _ (by decide),
        alook_dictPop_ne _ _ _ (by decide),
        alook_dictSet_ne _ _ _ _ (by decide), hm]
  exact alook_metaStep_moved _ _ h3

theorem decodeMeta_metadata_absent (result : List (String × JValue))
    (hm : alook "metadata" result = none) :
    alook "metadata" (decodeMeta result) = none ∧
    alook "source_metadata" (decodeMeta result) =
      alook "source_metadata" result := by
  unfold decodeMeta
  have h3 : alook "metadata"
      (scoreStep (dictPop (dictSet result "type" (typeTagOf result))
        "content")) = none := by
    rw [alook_scoreStep_ne _ _ (by decide),
        alook_dictPop_ne _ _ _ (by decide),
        alook_dictSet_ne _ _ _ _ (by decide), hm]
  rw [alook_metaStep_absent _ h3]
  constructor
  · exact h3
  · rw [alook_scoreStep_ne _ _ (by decide),
        alook_dictPop_ne _ _ _ (by decide),
        alook_dictSet_ne _ _ _ _ (by decide)]

theorem alook_decodeMeta_passthrough (result : List (String × JValue))
    (k : String)
    (h : k ∉ (["content", "metadata", "type", "score", "source_metadata"] :
      List String)) :
    alook k (decodeMeta result) = alook k result := by
  simp only [List.mem_cons, List.not_mem_nil, or_false] at h
  push_neg at h
  obtain ⟨h1, h2, h3, h4, h5⟩ := h
  unfold decodeMeta
  rw [alook_metaStep_ne _ _ h2 h5, alook_scoreStep_ne _ _ h4,
      alook_dictPop_ne _ _ _ h1, alook_dictSet_ne _ _ _ _ h3]

theorem pyTruthy_obj_nonempty (cf : List (String × JValue)) (hne : cf ≠ []) :
    pyTruthy (.obj cf) = true := by
  cases cf with
  | nil => exact absurd rfl hne
  | cons p rest => rfl

set_option linter.unnecessarySeqFocus false in
theorem getContent_ok (result cf : List (String × JValue))
    (hc : alook "content" result = some (.obj cf)) (hne : cf ≠ []) :
    exceptOk (getContentFromResult result) = true := by
  have hres : result ≠ [] := by
    intro h
    rw [h] at hc
    simp [alook] at hc
  unfold getContentFromResult
  rw [if_neg (by simp [hres]), hc]
  simp only [pyTruthy_obj_nonempty cf hne, Bool.true_eq_false, if_false]
  rcases ht : pyGet "type" cf with _ | tv
  · rfl
  · by_cases htr : pyTruthy tv = false
    · simp [htr, exceptOk]
    · have htr' : pyTruthy tv = true := by
        cases hb : pyTruthy tv
        · exact absurd hb htr
        · rfl
      cases tv <;> simp [htr', exceptOk] <;> split_ifs <;> simp [exceptOk]

end DecodeLemmas

/-- C2: for every query string, knowledge-base id and optional config, the
built request carries `retrievalQuery.text` equal to the
whitespace-stripped query and `knowledgeBaseId` equal to the given id; with
no config the request is exactly those two keys and `retrievalConfiguration`
is entirely absent; in particular
`build_request("  hello world  ", "kb-1", null)` yields exactly
`{retrievalQuery: {text: "hello world"}, knowledgeBaseId: "kb-1"}`. -/
theorem getRetrieveRequest_shape :
    (∀ (query kbId : String) (cfg : Option RetrievalConfig),
      alook "retrievalQuery" (getRetrieveRequest query kbId cfg) =
        some (.obj [("text", .str (pyStrip query))]) ∧
      alook "knowledgeBaseId" (getRetrieveRequest query kbId cfg) =
        some (.str kbId)) ∧
    (∀ (query kbId : String),
      getRetrieveRequest query kbId none =
        [("retrievalQuery", .obj [("text", .str (pyStrip query))]),
         ("knowledgeBaseId", .str kbId)] ∧
      alook "retrievalConfiguration" (getRetrieveRequest query kbId none) =
        none) ∧
    getRetrieveRequest "  hello world  " "kb-1" none =
      [("retrievalQuery", .obj [("text", .str "hello world")]),
       ("knowledgeBaseId", .str "kb-1")] := by
  refine ⟨fun query kbId cfg => ⟨?_, ?_⟩, fun query kbId => ⟨rfl, rfl⟩, ?_⟩
  · cases cfg <;> rfl
  · cases cfg <;> rfl
  · rfl

/-- C9 counterexample: constructing a `VectorSearchConfig` from a mapping
with `numberOfResults = 0` (a non-positive value) succeeds — pydantic
validation accepts it, contradicting the claim that it fails with a
`ConfigurationError` at construction time. -/
theorem vsc_zero_accepted :
    parseVectorSearchConfig (.obj [("numberOfResults", .num 0)]) =
      some ⟨0, none, none, []⟩ ∧
    parseVectorSearchConfig (.obj [("numberOfResults", .num 0)]) ≠ none := by
  constructor
  · rfl
  · intro h
    simp [parseVectorSearchConfig, alook] at h

/-- C9 (amended): `numberOfResults` is a plain integer field with default 4:
construction from a mapping accepts every integer, including 0 and negative
values (no positivity validation exists in the source), and omitting the
field yields 4. -/
theorem vsc_numberOfResults_any_int :
    (∀ n : Int,
      parseVectorSearchConfig (.obj [("numberOfResults", .num (n : ℚ))]) =
        some ⟨n, none, none, []⟩) ∧
    parseVectorSearchConfig (.obj []) = some ⟨4, none, none, []⟩ := by
  constructor
  · intro n
    simp [parseVectorSearchConfig, alook]
  · rfl

theorem keys_optField (k key : String) (o : Option Filter)
    (h : k ∈ (optField key o).map Prod.fst) : k = key := by
  cases o <;> simp [optField] at h
  exact h

theorem dumpSF_keys (sf : SearchFilter) :
    (dumpSF sf).map Prod.fst ⊆ sfWireKeys := by
  obtain ⟨a, o, e, gt, gte, i, lt, lte, lc, ne, ni, sw, sc⟩ := sf
  rcases a with _ | la <;> rcases o with _ | lo <;>
    simp only [dumpSF, List.map_append, List.append_subset] <;>
    repeat' apply And.intro
  all_goals
    first
      | (intro k hk
         have hke := keys_optField _ _ _ hk
         subst hke
         decide)
      | (intro k hk
         simp at hk
         subst hk
         decide)
      | simp

theorem dumpSF_in_mem (sf : SearchFilter) (h : sf.in_.isSome = true) :
    "in" ∈ (dumpSF sf).map Prod.fst := by
  obtain ⟨a, o, e, gt, gte, i, lt, lte, lc, ne, ni, sw, sc⟩ := sf
  have h' : i.isSome = true := h
  obtain ⟨f, rfl⟩ := Option.isSome_iff_exists.mp h'
  rcases a with _ | la <;> rcases o with _ | lo <;>
    simp [dumpSF, optField, List.mem_append]

theorem dumpSF_notIn_mem (sf : SearchFilter) (h : sf.notIn.isSome = true) :
    "notIn" ∈ (dumpSF sf).map Prod.fst := by
  obtain ⟨a, o, e, gt, gte, i, lt, lte, lc, ne, ni, sw, sc⟩ := sf
  have h' : ni.isSome = true := h
  obtain ⟨f, rfl⟩ := Option.isSome_iff_exists.mp h'
  rcases a with _ | la <;> rcases o with _ | lo <;>
    simp [dumpSF, optField, List.mem_append]

/-- C3: a `RetrievalConfig` with only `vectorSearchConfiguration.
numberOfResults` set serialises to a mapping that omits `filter`,
`overrideSearchType` and `nextToken` entirely (the keys are absent, not
null), and every serialised `SearchFilter` uses only the alias wire names —
`"in"`/`"notIn"` for the two aliased operators, never the internal
identifier `in_`. -/
theorem retrievalConfig_minimal_dump :
    (∀ n : Int,
      dumpRetrievalConfig ⟨⟨n, none, none, []⟩, none, []⟩ =
        [("vectorSearchConfiguration",
          .obj [("numberOfResults", .num (n : ℚ))])] ∧
      alook "filter" (dumpVectorSearchConfig ⟨n, none, none, []⟩) = none ∧
      alook "overrideSearchType"
        (dumpVectorSearchConfig ⟨n, none, none, []⟩) = none ∧
      alook "nextToken"
        (dumpRetrievalConfig ⟨⟨n, none, none, []⟩, none, []⟩) = none) ∧
    (∀ sf : SearchFilter,
      (dumpSF sf).map Prod.fst ⊆ sfWireKeys ∧
      "in_" ∉ (dumpSF sf).map Prod.fst ∧
      (sf.in_.isSome = true → "in" ∈ (dumpSF sf).map Prod.fst) ∧
      (sf.notIn.isSome = true → "notIn" ∈ (dumpSF sf).map Prod.fst)) := by
  constructor
  · intro n
    exact ⟨rfl, rfl, rfl, rfl⟩
  · intro sf
    refine ⟨dumpSF_keys sf, fun hmem => ?_, dumpSF_in_mem sf,
      dumpSF_notIn_mem sf⟩
    have := dumpSF_keys sf hmem
    revert this
    decide

/-- C3 witness: at the concrete filter `sfIn [("year", 2024)]` the premise
`in_.isSome` holds and the serialised keys indeed contain `"in"`. -/
theorem retrievalConfig_minimal_dump_witness :
    "in" ∈ (dumpSF (sfIn [("year", .num 2024)])).map Prod.fst :=
  (retrievalConfig_minimal_dump.2 (sfIn [("year", .num 2024)])).2.2.1 rfl

/-- C7: a `SearchFilter` built from a mapping that uses the external alias
key `"in"` validates successfully, stores the value under the safe internal
field `in_`, serialises back to exactly the alias form `[("in", …)]`, and
round-trips through serialise-then-deserialise to the same filter; the wire
keys never contain the internal name `in_`. -/
theorem searchFilter_alias_roundtrip :
    ∀ f : Filter,
      parseSearchFilter (.obj [("in", .obj f)]) = some (sfIn f) ∧
      (sfIn f).in_ = some f ∧
      dumpSF (sfIn f) = [("in", .obj f)] ∧
      parseSearchFilter (.obj (dumpSF (sfIn f))) = some (sfIn f) ∧
      "in_" ∉ (dumpSF (sfIn f)).map Prod.fst ∧
      "in" ∈ (dumpSF (sfIn f)).map Prod.fst := by
  intro f
  refine ⟨rfl, rfl, rfl, rfl, ?_, ?_⟩
  · exact (by decide : ("in_" : String) ∉ (["in"] : List String))
  · exact (by decide : ("in" : String) ∈ (["in"] : List String))

theorem invalid_of_falsy_content (result : List (String × JValue))
    (v : JValue) (hres : result ≠ [])
    (hcv : alook "content" result = some v) (hf : pyTruthy v = false) :
    isInvalidResult (getContentFromResult result) = true := by
  unfold getContentFromResult
  rw [if_neg (by simp [hres]), hcv]
  simp [hf, isInvalidResult]

/-- C4: content extraction raises the module's `ValueError` exactly when the
raw result is empty or its `content` field is unusable — missing, `None`
(which Python's `dict.get` cannot distinguish from a missing key), or an
empty mapping — and never raises on a result whose content is a non-empty
mapping.  The hypothesis restricts `content` values to the source's own
annotation `content: dict` (a mapping or `None`). -/
theorem extractContent_invalid_iff (result : List (String × JValue))
    (h : contentWellTyped result) :
    (isInvalidResult (getContentFromResult result) = true ↔
      (result = [] ∨ alook "content" result = none ∨
       alook "content" result = some .null ∨
       alook "content" result = some (.obj []))) ∧
    (∀ cf, alook "content" result = some (.obj cf) → cf ≠ [] →
      exceptOk (getContentFromResult result) = true) := by
  constructor
  · constructor
    · intro hinv
      by_cases hres : result = []
      · exact Or.inl hres
      rcases hcv : alook "content" result with _ | v
      · exact Or.inr (Or.inl rfl)
      rcases h v hcv with rfl | ⟨cf, rfl⟩
      · exact Or.inr (Or.inr (Or.inl rfl))
      rcases cf with _ | ⟨p, rest⟩
      · exact Or.inr (Or.inr (Or.inr rfl))
      · have hok := getContent_ok result _ hcv (by simp)
        cases hge : getContentFromResult result with
        | ok x =>
          rw [hge] at hinv
          exact absurd hinv (by simp [isInvalidResult])
        | error e =>
          rw [hge] at hok
          exact absurd hok (by simp [exceptOk])
    · intro hrhs
      rcases hrhs with hres | hcv | hcv | hcv
      · subst hres
        rfl
      · by_cases hres : result = []
        · subst hres
          rfl
        · unfold getContentFromResult
          rw [if_neg (by simp [hres]), hcv]
          rfl
      · by_cases hres : result = []
        · rw [hres] at hcv
          simp [alook] at hcv
        · exact invalid_of_falsy_content result _ hres hcv rfl
      · by_cases hres : result = []
        · rw [hres] at hcv
          simp [alook] at hcv
        · exact invalid_of_falsy_content result _ hres hcv rfl
  · intro cf hcv hne
    exact getContent_ok result cf hcv hne

/-- C4 witness: instantiates the iff at the concrete result
`{content: {}}` (invalid: empty content mapping) and the no-raise half at
`{content: {text: "hi"}}`. -/
theorem extractContent_invalid_iff_witness :
    isInvalidResult
      (getContentFromResult [("content", JValue.obj [])]) = true ∧
    exceptOk
      (getContentFromResult
        [("content", JValue.obj [("text", JValue.str "hi")])]) = true := by
  constructor
  · exact (extractContent_invalid_iff [("content", JValue.obj [])]
      (by intro v hv; simp [alook] at hv; exact Or.inr ⟨[], hv.symm⟩)).1.mpr
      (Or.inr (Or.inr (Or.inr rfl)))
  · exact (extractContent_invalid_iff
      [("content", JValue.obj [("text", JValue.str "hi")])]
      (by intro v hv; simp [alook] at hv
          exact Or.inr ⟨[("text", JValue.str "hi")], hv.symm⟩)).2
      [("text", JValue.str "hi")] rfl (by simp)

/-- C5: a raw result whose content carries a truthy type tag other than
`"TEXT"`, `"IMAGE"` or `"ROW"` extracts to a `None` body, and decoding does
not raise — the result keeps flowing through the pipeline. -/
theorem unknownContentType_null (result cf : List (String × JValue))
    (tv : JValue)
    (hc : alook "content" result = some (.obj cf))
    (ht : pyGet "type" cf = some tv)
    (htr : pyTruthy tv = true)
    (h1 : tv ≠ .str "TEXT") (h2 : tv ≠ .str "IMAGE") (h3 : tv ≠ .str "ROW") :
    getContentFromResult result = .ok none ∧
    decodeResult result = .ok ⟨none, decodeMeta result⟩ := by
  have hres : result ≠ [] := fun hh => by
    rw [hh] at hc
    simp [alook] at hc
  have hcfne : cf ≠ [] := fun hh => by
    rw [hh] at ht
    simp [pyGet, alook] at ht
  have hextract : getContentFromResult result = .ok none := by
    unfold getContentFromResult
    rw [if_neg (by simp [hres]), hc]
    simp only [pyTruthy_obj_nonempty cf hcfne, Bool.true_eq_false, if_false]
    rw [ht]
    cases tv with
    | null => simp [pyTruthy] at htr
    | bool b => simp [htr]
    | num q => simp [htr]
    | arr xs => simp [htr]
    | obj fs => simp [htr]
    | str t =>
      have ht1 : t ≠ "TEXT" := fun hh => h1 (by rw [hh])
      have ht2 : t ≠ "IMAGE" := fun hh => h2 (by rw [hh])
      have ht3 : t ≠ "ROW" := fun hh => h3 (by rw [hh])
      simp [htr, ht1, ht2, ht3]
  refine ⟨hextract, ?_⟩
  unfold decodeResult
  rw [hextract]

/-- C5 witness: the concrete result
`{content: {type: "AUDIO", data: "x"}}` decodes without raising to a
Document with a `None` body. -/
theorem unknownContentType_null_witness :
    getContentFromResult
      [("content", JValue.obj
        [("type", JValue.str "AUDIO"), ("data", JValue.str "x")])] =
      .ok none := by
  exact (unknownContentType_null
    [("content", JValue.obj
      [("type", JValue.str "AUDIO"), ("data", JValue.str "x")])]
    [("type", JValue.str "AUDIO"), ("data", JValue.str "x")]
    (JValue.str "AUDIO") rfl rfl rfl (by simp) (by simp) (by simp)).1

/-- C6 counterexample: at the concrete raw result
`{content: {type: "ROW", row: null}}` the `row` field is present, yet
extraction returns `"[]"` and not the JSON serialisation of the stored row
value (`json.dumps(None) = "null"`), because the source replaces every falsy
row — not just a missing one — by the empty list.  This falsifies the claim
that extraction returns the serialised form of the `row` field whenever it
is present. -/
theorem rowNull_counterexample :
    getContentFromResult
      [("content", JValue.obj
        [("type", JValue.str "ROW"), ("row", JValue.null)])] =
      .ok (some (.str "[]")) ∧
    getContentFromResult
      [("content", JValue.obj
        [("type", JValue.str "ROW"), ("row", JValue.null)])] ≠
      .ok (some (.str (jsonDumps .null))) := by
  refine ⟨rfl, fun h => ?_⟩
  have h2 : (Except.ok (some (JValue.str "[]")) :
      Except PyErr (Option JValue)) = .ok (some (.str (jsonDumps .null))) := h
  simp [jsonDumps] at h2

/-- C6 (amended): for a `"ROW"`-typed content, extraction returns
`json.dumps` of the `row` field when that field is present and truthy; when
the field is absent, `None`, or otherwise falsy/empty it returns `"[]"`, the
serialisation of an empty sequence — so the output of the row branch is the
serialisation of a list. -/
theorem rowContent_serialization (result cf : List (String × JValue))
    (hc : alook "content" result = some (.obj cf))
    (ht : alook "type" cf = some (.str "ROW")) :
    (∀ rv, alook "row" cf = some rv → pyTruthy rv = true →
      getContentFromResult result = .ok (some (.str (jsonDumps rv)))) ∧
    (alook "row" cf = none →
      getContentFromResult result = .ok (some (.str "[]"))) ∧
    (∀ rv, alook "row" cf = some rv → pyTruthy rv = false →
      getContentFromResult result = .ok (some (.str "[]"))) := by
  have hres : result ≠ [] := fun hh => by
    rw [hh] at hc
    simp [alook] at hc
  have hcfne : cf ≠ [] := fun hh => by
    rw [hh] at ht
    simp [alook] at ht
  have hrow : getContentFromResult result =
      .ok (some (.str (jsonDumps (rowOrEmpty (alook "row" cf))))) := by
    unfold getContentFromResult
    rw [if_neg (by simp [hres]), hc]
    simp only [pyTruthy_obj_nonempty cf hcfne, Bool.true_eq_false, if_false]
    have hpg : pyGet "type" cf = some (.str "ROW") := by simp [pyGet, ht]
    rw [hpg]
    simp
    intro hcontra
    exact absurd hcontra (by decide)
  refine ⟨?_, ?_, ?_⟩
  · intro rv hrv htr
    rw [hrow, hrv]
    simp [rowOrEmpty, htr]
  · intro hnone
    rw [hrow, hnone]
    rfl
  · intro rv hrv hfalse
    rw [hrow, hrv]
    have hempty : rowOrEmpty (some rv) = .arr [] := by
      simp [rowOrEmpty, hfalse]
    rw [hempty]
    rfl

/-- C6 witness: the amended row behaviour at two concrete inputs — a
present, non-empty row serialises via `json.dumps`, and a missing row
serialises as `"[]"`. -/
theorem rowContent_serialization_witness :
    getContentFromResult
      [("content", JValue.obj
        [("type", JValue.str "ROW"), ("row", JValue.arr [JValue.num 1])])] =
      .ok (some (.str (jsonDumps (JValue.arr [JValue.num 1])))) ∧
    getContentFromResult
      [("content", JValue.obj [("type", JValue.str "ROW")])] =
      .ok (some (.str "[]")) := by
  constructor
  · exact (rowContent_serialization
      [("content", JValue.obj
        [("type", JValue.str "ROW"), ("row", JValue.arr [JValue.num 1])])]
      [("type", JValue.str "ROW"), ("row", JValue.arr [JValue.num 1])]
      rfl rfl).1 (JValue.arr [JValue.num 1]) rfl rfl
  · exact (rowContent_serialization
      [("content", JValue.obj [("type", JValue.str "ROW")])]
      [("type", JValue.str "ROW")] rfl rfl).2.1 rfl

/-- True on a decode that did not raise. -/
def decodeOk : Except PyErr Document → Bool
  | .ok _ => true
  | .error _ => false

/-- The produced Document of a successful decode (a junk Document on the
error side, which no theorem reaches). -/
def decodedDoc : Except PyErr Document → Document
  | .ok d => d
  | .error _ => ⟨none, []⟩

theorem decodeResult_eq (result : List (String × JValue))
    (cf : List (String × JValue))
    (hc : alook "content" result = some (.obj cf)) (hne : cf ≠ []) :
    decodeOk (decodeResult result) = true ∧
    (decodedDoc (decodeResult result)).metadata = decodeMeta result := by
  have hok := getContent_ok result cf hc hne
  cases hge : getContentFromResult result with
  | error e =>
    rw [hge] at hok
    simp [exceptOk] at hok
  | ok body =>
    have hd : decodeResult result = .ok ⟨body, decodeMeta result⟩ := by
      unfold decodeResult
      rw [hge]
    rw [hd]
    exact ⟨rfl, rfl⟩

/-- C1: decoding a raw result with a non-empty content mapping succeeds and
produces a Document whose metadata has `type` equal to the content's type
tag (defaulting to `"TEXT"` when the content has no `type` key), `score`
equal to the raw score (the default `0` applies only when the key is
absent), the original `metadata` value moved under `source_metadata` with
the original key removed (an absent `metadata` stays absent), every other
pass-through field preserved, and no `content` key; the concrete example
`{content: {type: "TEXT", text: "hi"}, score: 0.7, metadata: {a: 1}}`
decodes to body `"hi"` with metadata
`{score: 0.7, type: "TEXT", source_metadata: {a: 1}}`. -/
theorem decode_normalizes :
    (∀ (result cf : List (String × JValue)),
      alook "content" result = some (.obj cf) → cf ≠ [] →
      decodeOk (decodeResult result) = true ∧
      alook "type" (decodedDoc (decodeResult result)).metadata =
        some ((alook "type" cf).getD (.str "TEXT")) ∧
      alook "score" (decodedDoc (decodeResult result)).metadata =
        some ((alook "score" result).getD (.num 0)) ∧
      (∀ mv, alook "metadata" result = some mv →
        alook "source_metadata" (decodedDoc (decodeResult result)).metadata =
          some mv ∧
        alook "metadata" (decodedDoc (decodeResult result)).metadata =
          none) ∧
      (alook "metadata" result = none →
        alook "metadata" (decodedDoc (decodeResult result)).metadata =
          none ∧
        alook "source_metadata" (decodedDoc (decodeResult result)).metadata =
          alook "source_metadata" result) ∧
      (∀ k, k ∉ (["content", "metadata", "type", "score",
          "source_metadata"] : List String) →
        alook k (decodedDoc (decodeResult result)).metadata =
          alook k result) ∧
      alook "content" (decodedDoc (decodeResult result)).metadata = none) ∧
    decodeResult
      [("content", .obj [("type", .str "TEXT"), ("text", .str "hi")]),
       ("score", .num (7/10)), ("metadata", .obj [("a", .num 1)])] =
      .ok ⟨some (.str "hi"),
        [("score", .num (7/10)), ("type", .str "TEXT"),
         ("source_metadata", .obj [("a", .num 1)])]⟩ := by
  constructor
  · intro result cf hc hne
    obtain ⟨hok, hmeta⟩ := decodeResult_eq result cf hc hne
    rw [hmeta]
    refine ⟨hok, alook_decodeMeta_type result cf hc,
      alook_decodeMeta_score result,
      fun mv hm => decodeMeta_metadata_moved result mv hm,
      fun hm => decodeMeta_metadata_absent result hm,
      fun k hk => alook_decodeMeta_passthrough result k hk,
      alook_decodeMeta_content result⟩
  · rfl

/-- C1 witness: the general decode theorem instantiated at the example
record from the claim. -/
theorem decode_normalizes_witness :
    decodeOk (decodeResult
      [("content", .obj [("type", .str "TEXT"), ("text", .str "hi")]),
       ("score", .num (7/10)), ("metadata", .obj [("a", .num 1)])]) = true ∧
    alook "content" (decodedDoc (decodeResult
      [("content", .obj [("type", .str "TEXT"), ("text", .str "hi")]),
       ("score", .num (7/10)),
       ("metadata", .obj [("a", .num 1)])])).metadata = none := by
  obtain ⟨h1, _, _, _, _, _, h7⟩ := decode_normalizes.1
    [("content", .obj [("type", .str "TEXT"), ("text", .str "hi")]),
     ("score", .num (7/10)), ("metadata", .obj [("a", .num 1)])]
    [("type", .str "TEXT"), ("text", .str "hi")] rfl (by simp)
  exact ⟨h1, h7⟩

/-- C10: a raw result whose `score` key is present with value `None` decodes
to a Document whose metadata `score` is still `None` (the default `0` is
only inserted when the key is absent), and the confidence filter with any
positive threshold then excludes that document. -/
theorem nullScore_excluded (result cf : List (String × JValue))
    (hc : alook "content" result = some (.obj cf)) (hne : cf ≠ [])
    (hs : alook "score" result = some .null) :
    decodeOk (decodeResult result) = true ∧
    alook "score" (decodedDoc (decodeResult result)).metadata =
      some .null ∧
    (∀ m : ℚ, 0 < m →
      filterByScore (some m) [decodedDoc (decodeResult result)] = []) := by
  obtain ⟨hok, hmeta⟩ := decodeResult_eq result cf hc hne
  have hsc : alook "score" (decodedDoc (decodeResult result)).metadata =
      some .null := by
    rw [hmeta, alook_decodeMeta_score result, hs]
    rfl
  refine ⟨hok, hsc, fun m hm => ?_⟩
  have hm0 : ¬ (m = 0) := by
    intro hh
    rw [hh] at hm
    exact lt_irrefl 0 hm
  simp [filterByScore, hm0, List.filter, pyGet, hsc]

/-- C10 witness: the concrete record
`{content: {text: "hi"}, score: null}` keeps its `None` score through
decoding and is dropped by the confidence filter at threshold 1. -/
theorem nullScore_excluded_witness :
    alook "score" (decodedDoc (decodeResult
      [("content", .obj [("text", .str "hi")]),
       ("score", JValue.null)])).metadata = some .null ∧
    filterByScore (some 1) [decodedDoc (decodeResult
      [("content", .obj [("text", .str "hi")]),
       ("score", JValue.null)])] = [] := by
  obtain ⟨_, h2, h3⟩ := nullScore_excluded
    [("content", .obj [("text", .str "hi")]), ("score", JValue.null)]
    [("text", .str "hi")] rfl (by simp) rfl
  exact ⟨h2, h3 1 one_pos⟩

/-- C8: the confidence filter is the identity when the threshold is null or
zero; for a non-zero threshold it returns exactly the subsequence (order
preserved, documents unchanged) of the documents whose metadata `score` is
present, non-`None` and `≥` the threshold; over scores
`[0.9, 0.3, null, 0.5]` with threshold `0.5` exactly the `0.9` and `0.5`
documents survive, in order. -/
theorem filterByScore_spec :
    (∀ docs, filterByScore none docs = docs) ∧
    (∀ docs, filterByScore (some 0) docs = docs) ∧
    (∀ (m : ℚ) (docs : List Document), m ≠ 0 →
      ((filterByScore (some m) docs).Sublist docs ∧
       ∀ d, d ∈ filterByScore (some m) docs ↔
         (d ∈ docs ∧ ∃ v, pyGet "score" d.metadata = some v ∧
           scoreGe v m = true))) ∧
    filterByScore (some (1/2))
      [⟨none, [("score", .num (9/10))]⟩, ⟨none, [("score", .num (3/10))]⟩,
       ⟨none, [("score", JValue.null)]⟩, ⟨none, [("score", .num (1/2))]⟩] =
      [⟨none, [("score", .num (9/10))]⟩, ⟨none, [("score", .num (1/2))]⟩] := by
  refine ⟨fun docs => rfl, fun docs => by simp [filterByScore],
    fun m docs hm => ⟨?_, ?_⟩, ?_⟩
  · simp only [filterByScore, if_neg hm]
    exact List.filter_sublist _
  · intro d
    simp only [filterByScore, if_neg hm, List.mem_filter, Bool.and_eq_true]
    constructor
    · rintro ⟨hd, hp, hge⟩
      refine ⟨hd, ?_⟩
      cases hv : pyGet "score" d.metadata with
      | none =>
        rw [hv] at hp
        simp at hp
      | some v =>
        rw [hv] at hge
        exact ⟨v, rfl, hge⟩
    · rintro ⟨hd, v, hv, hge⟩
      rw [hv]
      exact ⟨hd, rfl, hge⟩
  · simp [filterByScore, List.filter, pyGet, alook, scoreGe]
    norm_num

/-- C8 witness: at the concrete threshold 1 the non-zero branch applies and
a document scored 1 is retained. -/
theorem filterByScore_spec_witness :
    ⟨none, [("score", JValue.num 1)]⟩ ∈
      filterByScore (some 1) [(⟨none, [("score", JValue.num 1)]⟩ :
        Document)] := by
  have h := (filterByScore_spec.2.2.1 1
    [⟨none, [("score", JValue.num 1)]⟩] one_ne_zero).2
    ⟨none, [("score", JValue.num 1)]⟩
  exact h.mpr ⟨by simp, JValue.num 1, rfl, by simp [scoreGe]⟩

end BedrockKB
